import Mathlib

/-!
Shallow embedding of the manim-skill tools:
  tools/video_viewer.py  (chapter indexing, range file serving, GET routing)
  tools/concat_srt.py    (subtitle timeline merging)
  tools/render_manim.py  (scene rendering and stitching result reporting)

Conventions of the embedding:
  - Python floats (durations, subtitle timestamps) are modelled as exact
    rationals (Rat); the source performs only +, -, *, /, divmod and int
    truncation on them.
  - Filesystem and subprocess effects are modelled as explicit oracles
    passed to the functions (existence predicates, duration probes,
    subprocess outcomes), so each function is a pure function of the
    oracle responses, exactly mirroring the control flow of the source.
  - String primitives (strip, split, startswith, zero padded formatting)
    are re-implemented structurally on character lists so that they follow
    CPython semantics and reduce in the kernel.
-/

/-- Whitespace test matching the CPython str.strip default set and the
regex class backslash-s: space, tab, newline, carriage return, vertical
tab, form feed. -/
def pyWsChar (c : Char) : Bool :=
  c == ' ' || c == '\t' || c == '\n' || c == '\r' || c == '\x0b' || c == '\x0c'

/-- Characters of a string with leading and trailing Python whitespace
removed (str.strip). -/
def pyStripChars (cs : List Char) : List Char :=
  ((cs.dropWhile pyWsChar).reverse.dropWhile pyWsChar).reverse

/-- Python str.strip with no argument. -/
def pyStrip (s : String) : String :=
  String.mk (pyStripChars s.toList)

/-- Removes sep from the front of cs, returning the remainder, or none if
cs does not start with sep. -/
def stripPrefixChars : List Char → List Char → Option (List Char)
  | [], cs => some cs
  | _ :: _, [] => none
  | p :: ps, c :: cs => if c == p then stripPrefixChars ps cs else none

/-- Worker for pySplit; fuel is an upper bound on the number of characters
left, so the recursion is structural and kernel reducible. -/
def pySplitAux (sep : List Char) : Nat → List Char → List Char → List (List Char)
  | 0, acc, _ => [acc.reverse]
  | _ + 1, acc, [] => [acc.reverse]
  | fuel + 1, acc, c :: cs =>
    match stripPrefixChars sep (c :: cs) with
    | some rest => acc.reverse :: pySplitAux sep fuel [] rest
    | none => pySplitAux sep fuel (c :: acc) cs

/-- Python str.split with an explicit non-empty separator: leftmost
matches, empty pieces preserved. -/
def pySplit (s sep : String) : List String :=
  (pySplitAux sep.toList (s.toList.length + 1) [] s.toList).map String.mk

/-- Python str.startswith, via a structural prefix test. -/
def pyStartsWith (s pre : String) : Bool :=
  pre.toList.isPrefixOf s.toList

/-- String with its first n characters removed (Python slicing s[n:]),
implemented structurally. -/
def pyDropStr (n : Nat) (s : String) : String :=
  String.mk (s.toList.drop n)

/-- Maximal run of ASCII digits at the front of a character list (the
greedy regex atom backslash-d-plus), returning the run and the rest. -/
def takeDigits : List Char → List Char × List Char
  | [] => ([], [])
  | c :: cs =>
    if c.isDigit then
      let p := takeDigits cs
      (c :: p.1, p.2)
    else ([], c :: cs)

/-- Numeric value of a digit run, as Python int() of the matched group. -/
def digitsVal (ds : List Char) : Nat :=
  ds.foldl (fun a c => 10 * a + (c.toNat - 48)) 0

/-- Matches one-or-more digits at the front (regex group of backslash-d),
returning the value and the remainder; none if there is no digit. -/
def matchNum (cs : List Char) : Option (Nat × List Char) :=
  match takeDigits cs with
  | ([], _) => none
  | (ds, r) => some (digitsVal ds, r)

/-- Matches one literal character at the front. -/
def matchLit (c : Char) : List Char → Option (List Char)
  | [] => none
  | x :: xs => if x == c then some xs else none

/-- Python format spec 0-padding for integers (f-string {n:0w}): the sign,
then zeros, then the digits, padded to total width w. -/
def zfill (w : Nat) (n : Int) : String :=
  let digits := toString n.natAbs
  let sign := if n < 0 then "-" else ""
  sign ++ String.mk (List.replicate (w - (digits.length + sign.length)) '0') ++ digits

/-! ## video_viewer.py: chapter indexing -/

/-- Chapter metadata dict built by build_chapters in video_viewer.py. -/
structure Chapter where
  index : Nat
  name : String
  start : Rat
  duration : Rat
  thumbnail : String
deriving DecidableEq, Repr

/-- Default chapter used only as the out-of-range value of List.getD in
theorem statements. -/
def defaultChapter : Chapter :=
  { index := 0, name := "", start := 0, duration := 0, thumbnail := "" }

/-- Final path component, as pathlib Path(p).name for a plain file path. -/
def lastPathComponent (p : String) : String :=
  (pySplit p "/").getLastD p

/-- Pathlib stem semantics: the name without its final extension; a dot at
position zero or a trailing dot does not start an extension. -/
def pyStem (name : String) : String :=
  let cs := name.toList
  match cs.reverse.findIdx? (fun c => c == '.') with
  | none => name
  | some r =>
    let i := cs.length - 1 - r
    if 0 < i ∧ i < cs.length - 1 then String.mk (cs.take i) else name

/-- Resolution suffix removal from extract_scene_name: re.sub of the
anchored pattern underscore, four digits, letter x, four digits at the end
of the stem. -/
def stripResSuffix (s : String) : String :=
  let cs := s.toList
  let n := cs.length
  match cs.drop (n - 10) with
  | [u0, d1, d2, d3, d4, x5, d6, d7, d8, d9] =>
    if 10 ≤ n && u0 == '_' && d1.isDigit && d2.isDigit && d3.isDigit && d4.isDigit
        && x5 == 'x' && d6.isDigit && d7.isDigit && d8.isDigit && d9.isDigit then
      String.mk (cs.take (n - 10))
    else s
  | _ => s

/-- extract_scene_name from video_viewer.py: Path(video_path).stem with a
trailing resolution marker removed. -/
def extract_scene_name (video_path : String) : String :=
  stripResSuffix (pyStem (lastPathComponent video_path))

/-- Thumbnail filename chosen in build_chapters for input position i. -/
def thumbName (i : Nat) : String :=
  "thumb_" ++ toString i ++ ".jpg"

/-- Loop of build_chapters: i is the enumerate index, t the running start
offset (current_time). Oracles: ex models os.path.exists, dur models
get_video_duration (the ffprobe probe, 0.0 on probe failure). The
extract_thumbnail call is effect-only (its Boolean result is discarded by
the source), so it does not appear in the state. -/
def buildChaptersAux (ex : String → Bool) (dur : String → Rat) :
    Nat → Rat → List String → List Chapter
  | _, _, [] => []
  | i, t, v :: rest =>
    if ex v then
      { index := i, name := extract_scene_name v, start := t, duration := dur v,
        thumbnail := thumbName i } :: buildChaptersAux ex dur (i + 1) (t + dur v) rest
    else
      buildChaptersAux ex dur (i + 1) t rest

/-- build_chapters from video_viewer.py. -/
def build_chapters (ex : String → Bool) (dur : String → Rat)
    (scene_videos : List String) : List Chapter :=
  buildChaptersAux ex dur 0 0 scene_videos

/-! ## video_viewer.py: range file serving -/

/-- Response assembled by ViewerHandler.serve_file: status code, headers
and body bytes. contentLength is an Int because the source computes
end - start + 1 with Python ints. -/
structure FileResp where
  status : Nat
  contentType : String
  contentRange : Option String
  contentLength : Int
  acceptRanges : String
  body : List Nat
deriving DecidableEq, Repr

/-- Python file read after a seek: f.seek(pos) then f.read(n); a negative
n reads to end of file, otherwise at most n bytes are returned. -/
def fileRead (file : List Nat) (pos : Nat) (n : Int) : List Nat :=
  if n < 0 then file.drop pos else (file.drop pos).take n.toNat

/-- re.match of the pattern bytes=(digits)-(digits-star) used by
serve_file: anchored at the start, trailing text permitted; the second
group is none when empty (Python falsy). -/
def rangeMatch (s : String) : Option (Nat × Option Nat) :=
  match s.toList with
  | 'b' :: 'y' :: 't' :: 'e' :: 's' :: '=' :: rest =>
    match matchNum rest with
    | none => none
    | some (st, r1) =>
      match matchLit '-' r1 with
      | none => none
      | some r2 =>
        match takeDigits r2 with
        | ([], _) => some (st, none)
        | (ds, _) => some (st, some (digitsVal ds))
  | _ => none

/-- Plain 200 response of serve_file when no byte range applies. -/
def fullResp (file : List Nat) (ct : String) : FileResp :=
  { status := 200, contentType := ct, contentRange := none,
    contentLength := (file.length : Int), acceptRanges := "bytes", body := file }

/-- ViewerHandler.serve_file from video_viewer.py, as a function of the
file bytes, declared content type and the optional Range header value. -/
def serve_file (file : List Nat) (ct : String) (rangeHeader : Option String) : FileResp :=
  match rangeHeader with
  | none => fullResp file ct
  | some rh =>
    match rangeMatch rh with
    | none => fullResp file ct
    | some (start, endGroup) =>
      let fsz : Int := (file.length : Int)
      let e : Int :=
        match endGroup with
        | some v => (v : Int)
        | none => fsz - 1
      { status := 206, contentType := ct,
        contentRange := some ("bytes " ++ toString (start : Int) ++ "-" ++ toString e
          ++ "/" ++ toString fsz),
        contentLength := e - (start : Int) + 1,
        acceptRanges := "bytes",
        body := fileRead file start (e - (start : Int) + 1) }

/-! ## video_viewer.py: GET routing -/

/-- Abstract outcome of ViewerHandler.do_GET dispatch: which handler runs
(and on which file) or a 404. -/
inductive GetOutcome where
  | viewerPage : GetOutcome
  | fileServe : String → String → GetOutcome
  | chaptersJson : GetOutcome
  | notFound : GetOutcome
deriving DecidableEq, Repr

/-- ViewerHandler.do_GET route dispatch from video_viewer.py, on the
already URL-decoded request path. thumbExists models os.path.exists on
the joined thumbnail path. -/
def do_GET (video_path temp_dir : String) (thumbExists : String → Bool)
    (path : String) : GetOutcome :=
  if path == "/" || path == "/index.html" then GetOutcome.viewerPage
  else if path == "/video.mp4" then GetOutcome.fileServe video_path "video/mp4"
  else if path == "/chapters.json" then GetOutcome.chaptersJson
  else if pyStartsWith path "/thumb_" then
    let thumb_path := temp_dir ++ "/" ++ pyDropStr 1 path
    if thumbExists thumb_path then GetOutcome.fileServe thumb_path "image/jpeg"
    else GetOutcome.notFound
  else GetOutcome.notFound

/-! ## concat_srt.py: subtitle timeline merging -/

/-- One input video of the order file, reduced to what concat_srt.py main
reads from it: the content of the sibling .srt file when it exists, and
the ffprobe duration returned by get_duration (0.0 when the probe fails,
which includes a missing video file). -/
structure SegVideo where
  srtContent : Option String
  duration : Rat
deriving DecidableEq

/-- srt_time from concat_srt.py: divmod by 3600 and 60, truncation via
int(), milliseconds as int of the fractional part times 1000; components
are zero padded with Python format specs 02 and 03. divmod on a positive
divisor floors, and all truncated quantities are nonnegative, so int()
coincides with the floor. -/
def srt_time (s : Rat) : String :=
  let h : Int := Int.floor (s / 3600)
  let rem : Rat := s - 3600 * (h : Rat)
  let m : Int := Int.floor (rem / 60)
  let sec : Rat := rem - 60 * (m : Rat)
  let isec : Int := Int.floor sec
  let ms : Int := Int.floor ((sec - (isec : Rat)) * 1000)
  zfill 2 h ++ ":" ++ zfill 2 m ++ ":" ++ zfill 2 isec ++ "," ++ zfill 3 ms

/-- Matches one timestamp of the block time line: digits, colon, digits,
colon, digits, a comma or dot, digits; returns the four groups and the
rest of the input. -/
def matchTimestamp (cs : List Char) : Option (Nat × Nat × Nat × Nat × List Char) :=
  match matchNum cs with
  | none => none
  | some (h, r1) =>
    match matchLit ':' r1 with
    | none => none
    | some r2 =>
      match matchNum r2 with
      | none => none
      | some (m, r3) =>
        match matchLit ':' r3 with
        | none => none
        | some r4 =>
          match matchNum r4 with
          | none => none
          | some (s, r5) =>
            match r5 with
            | [] => none
            | sep :: r6 =>
              if sep == ',' || sep == '.' then
                match matchNum r6 with
                | none => none
                | some (ms, r7) => some (h, m, s, ms, r7)
              else none

/-- Matches the arrow between the two timestamps: optional whitespace,
the three characters dash dash greater, optional whitespace. -/
def matchArrow (cs : List Char) : Option (List Char) :=
  match matchLit '-' (cs.dropWhile pyWsChar) with
  | none => none
  | some r1 =>
    match matchLit '-' r1 with
    | none => none
    | some r2 =>
      match matchLit '>' r2 with
      | none => none
      | some r3 => some (r3.dropWhile pyWsChar)

/-- Seconds value of a matched timestamp, as computed in concat_srt.py:
h times 3600 plus m times 60 plus s plus ms over 1000. -/
def tsSeconds (h m s ms : Nat) : Rat :=
  (h : Rat) * 3600 + (m : Rat) * 60 + (s : Rat) + (ms : Rat) / 1000

/-- re.match of the time-range pattern of concat_srt.py against a block
line: anchored at the start, trailing text permitted; returns the start
and end times in seconds (before the offset shift). -/
def timeMatch (line : String) : Option (Rat × Rat) :=
  match matchTimestamp line.toList with
  | none => none
  | some (h1, m1, s1, ms1, rest) =>
    match matchArrow rest with
    | none => none
    | some rest2 =>
      match matchTimestamp rest2 with
      | none => none
      | some (h2, m2, s2, ms2, _) =>
        some (tsSeconds h1 m1 s1 ms1, tsSeconds h2 m2 s2 ms2)

/-- Parsing of one subtitle block by the main loop of concat_srt.py:
split into lines, skip when fewer than three lines, skip when the second
line does not match the time pattern; otherwise the start and end seconds
and the joined text lines. -/
def parseBlock (block : String) : Option (Rat × Rat × String) :=
  let lines := pySplit block "\n"
  if lines.length < 3 then none
  else
    match timeMatch (lines.getD 1 "") with
    | none => none
    | some (s, e) => some (s, e, String.intercalate "\n" (lines.drop 2))

/-- Blocks of one subtitle file: content stripped, then split on blank
lines (the separator newline newline). -/
def splitBlocks (content : String) : List String :=
  pySplit (pyStrip content) "\n\n"

/-- Serialization of one output entry in concat_srt.py: the sequence
number line, the canonical comma-formatted time range, the text. -/
def renderEntry (num : Nat) (s e : Rat) (text : String) : String :=
  toString num ++ "\n" ++ srt_time s ++ " --> " ++ srt_time e ++ "\n" ++ text

/-- Inner fold of the main loop over the blocks of one subtitle file:
es is the accumulated entries list; a parsed block is appended with
sequence number len(entries) + 1 and both times shifted by offset. -/
def addBlocks (offset : Rat) (es : List String) (blocks : List String) : List String :=
  blocks.foldl
    (fun es b =>
      match parseBlock b with
      | none => es
      | some (s, e, text) =>
        es ++ [renderEntry (es.length + 1) (s + offset) (e + offset) text])
    es

/-- Outer loop of concat_srt.py main over the ordered videos: a video
without a subtitle file contributes nothing; every video advances the
offset by its own duration after its blocks are processed. -/
def concatEntriesAux : List SegVideo → List String → Rat → List String
  | [], es, _ => es
  | v :: vs, es, offset =>
    let es2 :=
      match v.srtContent with
      | none => es
      | some content => addBlocks offset es (splitBlocks content)
    concatEntriesAux vs es2 (offset + v.duration)

/-- Entry list produced by concat_srt.py main for the ordered videos. -/
def concatEntries (vs : List SegVideo) : List String :=
  concatEntriesAux vs [] 0

/-- Text written to the output file by concat_srt.py main: entries joined
by blank lines plus a trailing newline, or the empty string when there
are no entries. -/
def concatOutput (vs : List SegVideo) : String :=
  let es := concatEntries vs
  if es.isEmpty then "" else String.intercalate "\n\n" es ++ "\n"

/-- Specification-transparent view of one video: the well-formed blocks
of its subtitle file, parsed, with both times shifted by the given
offset. -/
def segParsed (offset : Rat) (v : SegVideo) : List (Rat × Rat × String) :=
  match v.srtContent with
  | none => []
  | some c =>
    ((splitBlocks c).filterMap parseBlock).map
      (fun t => (t.1 + offset, t.2.1 + offset, t.2.2))

/-- Sum of the durations of the videos before position k (the cumulative
offset the spec talks about). -/
def offsetBefore (vs : List SegVideo) (k : Nat) : Rat :=
  ((vs.take k).map (fun v => v.duration)).sum

/-- Placeholder video used only as the List.getD default in statements. -/
def defaultSeg : SegVideo := { srtContent := none, duration := 0 }

/-- Specification-transparent merged entry list: for each input position
k, the parsed well-formed blocks of video k shifted by the sum of the
durations of videos 0..k-1, concatenated in input order. -/
def specEntries (vs : List SegVideo) : List (Rat × Rat × String) :=
  (List.range vs.length).flatMap
    (fun k => segParsed (offsetBefore vs k) (vs.getD k defaultSeg))

/-- Recursive form of specEntries used to relate it to the fold of the
source. -/
def specFrom (offset : Rat) : List SegVideo → List (Rat × Rat × String)
  | [] => []
  | v :: vs => segParsed offset v ++ specFrom (offset + v.duration) vs

/-- Serializes parsed entries with consecutive sequence numbers starting
at base. -/
def renderFrom (base : Nat) : List (Rat × Rat × String) → List String
  | [] => []
  | t :: ts => renderEntry base t.1 t.2.1 t.2.2 :: renderFrom (base + 1) ts

/-! ## render_manim.py: render and stitch result reporting -/

/-- Observed outcome of the bounded manim subprocess call (timeout 600)
plus the output video existence check that follows it: the process
completed with a return code and stderr and the expected video did or did
not appear, or subprocess.run raised TimeoutExpired, or some other
exception was raised. -/
inductive RunOutcome where
  | completed : Int → String → Bool → RunOutcome
  | timedOut : RunOutcome
  | raised : String → RunOutcome
deriving DecidableEq

/-- Per-scene result dict of _render_single_scene. The wall-clock
render_time field is environment time and is not modelled. -/
structure RenderResult where
  name : String
  status : String
  video : Option String
  output : String
deriving DecidableEq, Repr

/-- QUALITY_DIRS.get(quality, default 480p15) from render_manim.py. -/
def QUALITY_DIRS (q : String) : String :=
  if q == "l" then "480p15" else if q == "m" then "720p30"
  else if q == "h" then "1080p60" else "480p15"

/-- Output video path formed in _render_single_scene: media_dir, videos,
script stem, quality dir, scene name dot mp4. -/
def manimVideoPath (output_dir script_path quality_dir scene : String) : String :=
  output_dir ++ "/videos/" ++ pyStem (lastPathComponent script_path) ++ "/"
    ++ quality_dir ++ "/" ++ scene ++ ".mp4"

/-- _render_single_scene from render_manim.py as a function of the
observed subprocess outcome: success only when the return code is zero
and the video file exists; a timeout or exception becomes a normal error
result. -/
def render_single_scene (script_path scene output_dir quality_dir : String)
    (run : RunOutcome) : RenderResult :=
  match run with
  | RunOutcome.completed rc stderr videoExists =>
    if rc == 0 && videoExists then
      { name := scene, status := "success",
        video := some (manimVideoPath output_dir script_path quality_dir scene),
        output := pyStrip stderr }
    else
      { name := scene, status := "error", video := none, output := pyStrip stderr }
  | RunOutcome.timedOut =>
    { name := scene, status := "error", video := none,
      output := "Render timeout (600s exceeded)" }
  | RunOutcome.raised msg =>
    { name := scene, status := "error", video := none, output := msg }

/-- render_scenes from render_manim.py: one bounded render per scene (run
gives each scene its observed outcome); the results are gathered from
as_completed and then sorted back into the original scene order, which
this list realizes directly. -/
def render_scenes (run : String → RunOutcome)
    (script_path output_dir quality : String) (scenes : List String) : List RenderResult :=
  scenes.map (fun s => render_single_scene script_path s output_dir (QUALITY_DIRS quality) (run s))

/-- Top-level result dict of render_manim (project id and timing fields
are environment values and are not modelled; scenes is none exactly when
the early error dict without a scenes key is returned). -/
structure RenderManimResult where
  status : String
  error : Option String
  scenes : Option (List RenderResult)
deriving DecidableEq, Repr

/-- render_manim from render_manim.py: early error when the script file
is missing; otherwise the per-scene results with the overall status
computed from the success count: success when every scene succeeded,
partial when at least one but not all did, error when none did. -/
def render_manim (run : String → RunOutcome) (scriptExists : Bool)
    (script_path output_dir quality : String) (scenes : List String) : RenderManimResult :=
  if scriptExists = false then
    { status := "error", error := some ("Script file not found: " ++ script_path),
      scenes := none }
  else
    let rs := render_scenes run script_path output_dir quality scenes
    let success_count := (rs.filter (fun r => r.status == "success")).length
    { status :=
        if success_count = scenes.length then "success"
        else if success_count ≠ 0 then "partial" else "error",
      error := none, scenes := some rs }

/-- Exit code chosen by main in render_manim.py: zero only for an overall
success status. -/
def render_exit (r : RenderManimResult) : Nat :=
  if r.status == "success" then 0 else 1

/-- Observed outcome of the bounded ffmpeg concat subprocess call
(timeout 300) in stitch_videos. -/
inductive StitchOutcome where
  | completed : Int → String → StitchOutcome
  | timedOut : StitchOutcome
  | raised : String → StitchOutcome
deriving DecidableEq

/-- Result dict of stitch_videos (project id not modelled). -/
structure StitchResult where
  status : String
  error : Option String
  output : Option String
deriving DecidableEq, Repr

/-- Single quote character, used by the Python repr of a string list. -/
def squote : String := String.singleton (Char.ofNat 39)

/-- Python repr of a list of plain strings, as interpolated into the
missing-files error message (escaping inside the names is not modelled). -/
def pyReprStrList (l : List String) : String :=
  "[" ++ String.intercalate ", " (l.map (fun s => squote ++ s ++ squote)) ++ "]"

/-- stitch_videos from render_manim.py as a function of the path
existence oracle and the observed ffmpeg outcome: an early error dict
when inputs are missing, an error dict on nonzero exit, timeout or
exception, and a success dict with the output path otherwise. -/
def stitch_videos (ex : String → Bool) (runOut : StitchOutcome)
    (video_paths : List String) (output_dir output_name : String) : StitchResult :=
  let missing := video_paths.filter (fun p => !(ex p))
  if missing.isEmpty = false then
    { status := "error", error := some ("Missing video files: " ++ pyReprStrList missing),
      output := none }
  else
    match runOut with
    | StitchOutcome.completed rc stderr =>
      if rc ≠ 0 then
        { status := "error", error := some (pyStrip stderr), output := none }
      else
        { status := "success", error := none,
          output := some (output_dir ++ "/" ++ output_name) }
    | StitchOutcome.timedOut =>
      { status := "error", error := some "Stitch timeout (300s exceeded)", output := none }
    | StitchOutcome.raised msg =>
      { status := "error", error := some msg, output := none }

/-! ## Helper lemmas -/

/-- Unfolding step of addBlocks on a cons cell. -/
theorem addBlocks_cons (offset : Rat) (es : List String) (b : String) (bs : List String) :
    addBlocks offset es (b :: bs)
      = addBlocks offset
          (match parseBlock b with
           | none => es
           | some (s, e, text) =>
             es ++ [renderEntry (es.length + 1) (s + offset) (e + offset) text])
          bs := rfl

/-- Blocks that fail to parse can be removed without changing the fold. -/
theorem addBlocks_filter (offset : Rat) :
    ∀ (blocks : List String) (es : List String),
      addBlocks offset es blocks
        = addBlocks offset es (blocks.filter (fun b => (parseBlock b).isSome)) := by
  intro blocks
  induction blocks with
  | nil => intro es; rfl
  | cons b bs ih =>
    intro es
    rw [addBlocks_cons]
    cases hb : parseBlock b with
    | none =>
      simp only [List.filter_cons, hb, Option.isSome_none]
      exact ih es
    | some t =>
      obtain ⟨s, e, text⟩ := t
      simp only [List.filter_cons, hb, Option.isSome_some, if_pos]
      rw [addBlocks_cons, hb]
      exact ih _


/-! ## Claim C9: malformed subtitle blocks are skipped, never fatal -/

/-- C9: a subtitle block that does not have the expected shape (at least
the sequence line, the time line and one text line, with the second line
matching the time pattern) is skipped by the merge without aborting it:
removing all unparseable blocks leaves the fold unchanged, a block with
fewer than three lines parses to none, and a block whose second line does
not match the time pattern parses to none. The merge itself is a total
function of its input, so no malformed block can make it fail. -/
theorem malformed_blocks_c9 (offset : Rat) (es : List String) (blocks : List String) :
    (addBlocks offset es blocks
       = addBlocks offset es (blocks.filter (fun b => (parseBlock b).isSome)))
    ∧ (∀ b : String, (pySplit b "\n").length < 3 → parseBlock b = none)
    ∧ (∀ b : String, timeMatch ((pySplit b "\n").getD 1 "") = none → parseBlock b = none) := by
  refine ⟨addBlocks_filter offset blocks es, ?_, ?_⟩
  · intro b h
    simp only [parseBlock, if_pos h]
  · intro b h
    by_cases hlen : (pySplit b "\n").length < 3
    · simp only [parseBlock, if_pos hlen]
    · simp only [parseBlock, if_neg hlen, h]

/-- Witness for C9 at concrete malformed blocks: a single-line block and
a block whose second line is not a time range are both skipped. -/
theorem malformed_blocks_c9_witness :
    parseBlock "42" = none
    ∧ parseBlock "1\nnot a time line\nsome text" = none
    ∧ addBlocks 0 [] ["42"]
        = addBlocks 0 [] (["42"].filter (fun b => (parseBlock b).isSome)) := by
  have h := malformed_blocks_c9 0 [] ["42"]
  exact ⟨h.2.1 "42" (by decide), h.2.2 "1\nnot a time line\nsome text" (by decide), h.1⟩

/-! ## Claim C5: a segment without subtitles still advances the offset -/

/-- C5: a segment with no subtitle file contributes no entries to the
merge (the accumulated entry list is passed through unchanged, and its
parsed-block list is empty) but still advances the running offset by its
own duration, so all later segments are shifted by the full sum of the
durations of all prior segments. -/
theorem concat_srt_offset_c5 (d : Rat) (post : List SegVideo) (es : List String) (offset : Rat) :
    (concatEntriesAux ({ srtContent := none, duration := d } :: post) es offset
       = concatEntriesAux post es (offset + d))
    ∧ segParsed offset { srtContent := none, duration := d } = []
    ∧ specFrom offset ({ srtContent := none, duration := d } :: post)
        = specFrom (offset + d) post := by
  refine ⟨rfl, rfl, ?_⟩
  simp only [specFrom, segParsed, List.nil_append]

/-! ## Claim C6: the route table -/

/-- C6 counterexample: the do_GET dispatch of video_viewer.py sends both
GET /subtitles.srt and GET /download/status to the 404 default; neither
path is in the route table, contrary to the claim. -/
theorem routes_c6_counterexample :
    do_GET "final.mp4" "tmpdir" (fun _ => true) "/subtitles.srt" = GetOutcome.notFound
    ∧ do_GET "final.mp4" "tmpdir" (fun _ => true) "/download/status" = GetOutcome.notFound := by
  exact ⟨rfl, rfl⟩

/-- C6 amended: the fixed route table of do_GET handles exactly the paths
/, /index.html, /video.mp4, /chapters.json and the /thumb_ prefix (served
when the thumbnail file exists, 404 otherwise); /subtitles.srt and
/download/status are not routed and fall through to 404, as does every
other path. -/
theorem routes_c6_amended (video_path temp_dir : String) (thumbExists : String → Bool) :
    do_GET video_path temp_dir thumbExists "/" = GetOutcome.viewerPage
    ∧ do_GET video_path temp_dir thumbExists "/index.html" = GetOutcome.viewerPage
    ∧ do_GET video_path temp_dir thumbExists "/video.mp4"
        = GetOutcome.fileServe video_path "video/mp4"
    ∧ do_GET video_path temp_dir thumbExists "/chapters.json" = GetOutcome.chaptersJson
    ∧ do_GET video_path temp_dir thumbExists "/subtitles.srt" = GetOutcome.notFound
    ∧ do_GET video_path temp_dir thumbExists "/download/status" = GetOutcome.notFound
    ∧ (∀ p : String, (p == "/") = false → (p == "/index.html") = false →
        (p == "/video.mp4") = false → (p == "/chapters.json") = false →
        pyStartsWith p "/thumb_" = true →
        do_GET video_path temp_dir thumbExists p
          = (if thumbExists (temp_dir ++ "/" ++ pyDropStr 1 p)
             then GetOutcome.fileServe (temp_dir ++ "/" ++ pyDropStr 1 p) "image/jpeg"
             else GetOutcome.notFound))
    ∧ (∀ p : String, (p == "/") = false → (p == "/index.html") = false →
        (p == "/video.mp4") = false → (p == "/chapters.json") = false →
        pyStartsWith p "/thumb_" = false →
        do_GET video_path temp_dir thumbExists p = GetOutcome.notFound) := by
  refine ⟨rfl, rfl, rfl, rfl, rfl, rfl, ?_, ?_⟩
  · intro p h1 h2 h3 h4 h5
    simp [do_GET, h1, h2, h3, h4, h5]
  · intro p h1 h2 h3 h4 h5
    simp [do_GET, h1, h2, h3, h4, h5]

/-- Witness for C6 amended at concrete paths: an existing thumbnail path
is served from the temp directory and an unknown path is a 404. -/
theorem routes_c6_amended_witness :
    do_GET "final.mp4" "tmpdir" (fun _ => true) "/thumb_0.jpg"
      = GetOutcome.fileServe "tmpdir/thumb_0.jpg" "image/jpeg"
    ∧ do_GET "final.mp4" "tmpdir" (fun _ => true) "/nope" = GetOutcome.notFound := by
  have h := routes_c6_amended "final.mp4" "tmpdir" (fun _ => true)
  constructor
  · have h2 := h.2.2.2.2.2.2.1 "/thumb_0.jpg" (by decide) (by decide) (by decide)
      (by decide) (by decide)
    exact h2.trans (by decide)
  · exact h.2.2.2.2.2.2.2 "/nope" (by decide) (by decide) (by decide) (by decide) (by decide)

/-! ## Claim C8: timeouts surface as normal failure results -/

/-- C8: the render and stitch tools are total functions of the observed
outcome of the single bounded capability call each performs (the model
has no other timing mechanism, mirroring the source, where the only time
bound is the one passed to the capability invocation itself); when that
call times out, the result is an ordinary error dict with a descriptive
message, not an uncaught exception, and in every case the result status
is either success or error. -/
theorem render_stitch_timeout_c8 (script_path scene output_dir quality_dir : String)
    (ex : String → Bool) (video_paths : List String) (out_dir out_name : String) :
    (render_single_scene script_path scene output_dir quality_dir RunOutcome.timedOut
       = { name := scene, status := "error", video := none,
           output := "Render timeout (600s exceeded)" })
    ∧ (∀ run : RunOutcome,
        (render_single_scene script_path scene output_dir quality_dir run).status = "success"
        ∨ (render_single_scene script_path scene output_dir quality_dir run).status = "error")
    ∧ ((video_paths.filter (fun p => !(ex p))).isEmpty = true →
        stitch_videos ex StitchOutcome.timedOut video_paths out_dir out_name
          = { status := "error", error := some "Stitch timeout (300s exceeded)",
              output := none })
    ∧ (∀ so : StitchOutcome,
        (stitch_videos ex so video_paths out_dir out_name).status = "success"
        ∨ (stitch_videos ex so video_paths out_dir out_name).status = "error") := by
  refine ⟨rfl, ?_, ?_, ?_⟩
  · intro run
    cases run with
    | completed rc stderr videoExists =>
      by_cases h : (rc == 0 && videoExists) = true
      · left; simp [render_single_scene, h]
      · right; simp only [render_single_scene]
        rw [if_neg h]
    | timedOut => right; rfl
    | raised msg => right; rfl
  · intro hmp
    simp only [stitch_videos, hmp]
    rfl
  · intro so
    by_cases hm : (video_paths.filter (fun p => !(ex p))).isEmpty = false
    · right; simp only [stitch_videos, if_pos hm]
    · rw [Bool.not_eq_false] at hm
      cases so with
      | completed rc stderr =>
        by_cases hrc : rc ≠ 0
        · right; simp [stitch_videos, hm, hrc]
        · left; simp [stitch_videos, hm, hrc]
      | timedOut => right; simp [stitch_videos, hm]
      | raised msg => right; simp [stitch_videos, hm]

/-- Witness for C8: with one existing input video, a stitch whose ffmpeg
call times out yields the normal error dict with the timeout message. -/
theorem render_stitch_timeout_c8_witness :
    stitch_videos (fun _ => true) StitchOutcome.timedOut ["seg1.mp4"] "/tmp/out" "stitched.mp4"
      = { status := "error", error := some "Stitch timeout (300s exceeded)",
          output := none } := by
  exact (render_stitch_timeout_c8 "script.py" "SceneA" "/tmp/out" "480p15" (fun _ => true)
    ["seg1.mp4"] "/tmp/out" "stitched.mp4").2.2.1 (by decide)

/-! ## Claim C7: failed scene renders and the overall status -/

/-- C7 counterexample: a render run of two scenes in which the second
scene fails (nonzero exit, no output video) is reported by render_manim
with status partial, i.e. as a partial success, not as a failure status. -/
theorem render_partial_c7_counterexample :
    (render_manim
        (fun s => if s == "SceneA" then RunOutcome.completed 0 "" true
                  else RunOutcome.completed 1 "" false)
        true "script.py" "/tmp/out" "h" ["SceneA", "SceneB"]).status = "partial" := by
  decide

/-- C7 amended: a render run in which at least one scene fails is never
reported as an overall success: its status is partial (some other scene
succeeded) or error (none did), and the CLI exit code is 1, so at the
process level the run is reported as failed, though the result dict
itself says partial rather than a failure status when other scenes
succeeded. -/
theorem render_failure_c7_amended (run : String → RunOutcome)
    (script_path output_dir quality : String) (scenes : List String) (s : String)
    (hs : s ∈ scenes)
    (hfail : (render_single_scene script_path s output_dir (QUALITY_DIRS quality)
        (run s)).status ≠ "success") :
    (render_manim run true script_path output_dir quality scenes).status ≠ "success"
    ∧ render_exit (render_manim run true script_path output_dir quality scenes) = 1
    ∧ ((render_manim run true script_path output_dir quality scenes).status = "partial"
       ∨ (render_manim run true script_path output_dir quality scenes).status = "error") := by
  have hne : ((render_scenes run script_path output_dir quality scenes).filter
      (fun r => r.status == "success")).length ≠ scenes.length := by
    intro heq
    have hlen : (render_scenes run script_path output_dir quality scenes).length
        = scenes.length := by
      simp [render_scenes]
    have hall : ∀ r ∈ render_scenes run script_path output_dir quality scenes,
        (r.status == "success") = true := by
      refine List.filter_length_eq_length.mp ?_
      rw [heq, hlen]
    have hmem : render_single_scene script_path s output_dir (QUALITY_DIRS quality) (run s)
        ∈ render_scenes run script_path output_dir quality scenes := by
      simp only [render_scenes]
      exact List.mem_map_of_mem _ hs
    have := hall _ hmem
    exact hfail (by simpa using this)
  have hstatus : (render_manim run true script_path output_dir quality scenes).status
      = if ((render_scenes run script_path output_dir quality scenes).filter
          (fun r => r.status == "success")).length ≠ 0 then "partial" else "error" := by
    simp only [render_manim, if_neg hne]
    rfl
  by_cases hz : ((render_scenes run script_path output_dir quality scenes).filter
      (fun r => r.status == "success")).length ≠ 0
  · rw [hstatus, if_pos hz]
    refine ⟨by decide, ?_, Or.inl rfl⟩
    simp only [render_exit, hstatus, if_pos hz]
    rfl
  · rw [hstatus, if_neg hz]
    refine ⟨by decide, ?_, Or.inr rfl⟩
    simp only [render_exit, hstatus, if_neg hz]
    rfl

/-- Witness for C7 amended: the two-scene run with one failing scene is
not a success, exits with code 1, and is classified partial or error. -/
theorem render_failure_c7_amended_witness :
    (render_manim
        (fun s => if s == "SceneA" then RunOutcome.completed 0 "" true
                  else RunOutcome.completed 1 "" false)
        true "script.py" "/tmp/out" "h" ["SceneA", "SceneB"]).status ≠ "success"
    ∧ render_exit (render_manim
        (fun s => if s == "SceneA" then RunOutcome.completed 0 "" true
                  else RunOutcome.completed 1 "" false)
        true "script.py" "/tmp/out" "h" ["SceneA", "SceneB"]) = 1
    ∧ ((render_manim
        (fun s => if s == "SceneA" then RunOutcome.completed 0 "" true
                  else RunOutcome.completed 1 "" false)
        true "script.py" "/tmp/out" "h" ["SceneA", "SceneB"]).status = "partial"
       ∨ (render_manim
        (fun s => if s == "SceneA" then RunOutcome.completed 0 "" true
                  else RunOutcome.completed 1 "" false)
        true "script.py" "/tmp/out" "h" ["SceneA", "SceneB"]).status = "error") := by
  exact render_failure_c7_amended
    (fun s => if s == "SceneA" then RunOutcome.completed 0 "" true
              else RunOutcome.completed 1 "" false)
    "script.py" "/tmp/out" "h" ["SceneA", "SceneB"] "SceneB" (by decide) (by decide)

/-! ## Claim C4: missing segments are skipped without breaking offsets -/

/-- The chapter fold on an input list with an existence oracle produces
the same names, starts and durations as the fold on the filtered list in
which every path exists. -/
theorem buildChaptersAux_filter_eq (ex : String → Bool) (dur : String → Rat) :
    ∀ (l : List String) (i j : Nat) (t : Rat),
      (buildChaptersAux ex dur i t l).map (fun c => (c.name, c.start, c.duration))
        = (buildChaptersAux (fun _ => true) dur j t (l.filter ex)).map
            (fun c => (c.name, c.start, c.duration)) := by
  intro l
  induction l with
  | nil => intro i j t; rfl
  | cons v rest ih =>
    intro i j t
    cases hv : ex v with
    | true =>
      simp only [buildChaptersAux, List.filter_cons, hv, if_pos, if_true, List.map_cons]
      exact congrArg _ (ih (i + 1) (j + 1) (t + dur v))
    | false =>
      simp only [buildChaptersAux, List.filter_cons, hv, if_false, Bool.false_eq_true]
      exact ih (i + 1) j t

/-- C4: a segment path that does not exist is skipped entirely by
build_chapters: no chapter is emitted for it (the output has exactly one
chapter per existing path), and the names, start offsets and durations of
the remaining chapters are exactly those obtained from the input list
with the missing paths absent. -/
theorem build_chapters_missing_c4 (ex : String → Bool) (dur : String → Rat)
    (videos : List String) :
    ((build_chapters ex dur videos).map (fun c => (c.name, c.start, c.duration))
       = (build_chapters (fun _ => true) dur (videos.filter ex)).map
           (fun c => (c.name, c.start, c.duration)))
    ∧ (build_chapters ex dur videos).length = (videos.filter ex).length := by
  have h := buildChaptersAux_filter_eq ex dur videos 0 0 0
  refine ⟨h, ?_⟩
  have hlen := congrArg List.length h
  simp only [List.length_map] at hlen
  show (buildChaptersAux ex dur 0 0 videos).length = (videos.filter ex).length
  rw [hlen]
  have : ∀ (l : List String) (j : Nat) (t : Rat), (∀ v ∈ l, (fun _ => true) v = true) →
      (buildChaptersAux (fun _ => true) dur j t l).length = l.length := by
    intro l
    induction l with
    | nil => intro j t _; rfl
    | cons v rest ih =>
      intro j t _
      simp only [buildChaptersAux, if_pos, if_true, List.length_cons]
      rw [ih (j + 1) (t + dur v) (by intro a _; rfl)]
  exact this (videos.filter ex) 0 0 (by intro a _; rfl)

/-! ## Claim C10: chapter indices come from the original input positions -/

/-- The indices emitted by the chapter fold are the original enumerate
positions of the existing paths, shifted by the starting index. -/
theorem buildChaptersAux_indices (ex : String → Bool) (dur : String → Rat) :
    ∀ (l : List String) (i : Nat) (t : Rat),
      (buildChaptersAux ex dur i t l).map (fun c => c.index)
        = ((List.range l.length).filter (fun k => ex (l.getD k ""))).map (fun k => k + i) := by
  intro l
  induction l with
  | nil => intro i t; rfl
  | cons v rest ih =>
    intro i t
    rw [List.length_cons, List.range_succ_eq_map]
    have hcomp : ∀ k : Nat, ex ((v :: rest).getD (Nat.succ k) "") = ex (rest.getD k "") := by
      intro k; rfl
    cases hv : ex v with
    | true =>
      simp only [buildChaptersAux, hv, if_true, List.map_cons]
      rw [ih (i + 1) (t + dur v)]
      rw [List.filter_cons]
      simp only [List.getD_cons_zero, hv, if_pos]
      rw [List.map_filter, List.map_cons, List.map_map]
      congr 1
      · omega
      · have : ((fun k => ex ((v :: rest).getD k "")) ∘ Nat.succ)
            = fun k => ex (rest.getD k "") := by
          funext k; exact hcomp k
        rw [this]
        congr 1
        funext k
        simp only [Function.comp_apply, Nat.succ_eq_add_one]
        omega
    | false =>
      simp only [buildChaptersAux, hv, Bool.false_eq_true, if_false]
      rw [ih (i + 1) t]
      rw [List.filter_cons]
      simp only [List.getD_cons_zero, hv, Bool.false_eq_true, if_false]
      rw [List.map_filter, List.map_map]
      have : ((fun k => ex ((v :: rest).getD k "")) ∘ Nat.succ)
          = fun k => ex (rest.getD k "") := by
        funext k; exact hcomp k
      rw [this]
      congr 1
      funext k
      simp only [Function.comp_apply, Nat.succ_eq_add_one]
      omega

/-- Every chapter emitted by the fold names its thumbnail after its own
index field. -/
theorem buildChaptersAux_thumbnail (ex : String → Bool) (dur : String → Rat) :
    ∀ (l : List String) (i : Nat) (t : Rat) (c : Chapter),
      c ∈ buildChaptersAux ex dur i t l → c.thumbnail = thumbName c.index := by
  intro l
  induction l with
  | nil => intro i t c hc; cases hc
  | cons v rest ih =>
    intro i t c hc
    by_cases hv : ex v = true
    · rw [buildChaptersAux, if_pos hv] at hc
      rcases List.mem_cons.mp hc with h | h
      · rw [h]
      · exact ih (i + 1) (t + dur v) c h
    · rw [buildChaptersAux, if_neg hv] at hc
      exact ih (i + 1) t c hc

/-- C10: each chapter keeps the position of its segment in the original
input list as its index field, and its thumbnail name thumb_i.jpg is
derived from that same index; consequently, when a path is missing the
emitted indices are the original positions of the surviving paths (not a
renumbering), e.g. skipping the middle of three paths yields indices
zero and two. -/
theorem chapter_index_c10 (ex : String → Bool) (dur : String → Rat) (videos : List String) :
    ((build_chapters ex dur videos).map (fun c => c.index)
       = (List.range videos.length).filter (fun k => ex (videos.getD k "")))
    ∧ (∀ c ∈ build_chapters ex dur videos, c.thumbnail = thumbName c.index)
    ∧ ((build_chapters (fun v => !(v == "b.mp4")) (fun _ => 1)
          ["a.mp4", "b.mp4", "c.mp4"]).map (fun c => c.index) = [0, 2]) := by
  refine ⟨?_, ?_, ?_⟩
  · have h := buildChaptersAux_indices ex dur videos 0 0
    simpa using h
  · intro c hc
    exact buildChaptersAux_thumbnail ex dur videos 0 0 c hc
  · decide

/-! ## Claim C1: the chapter timeline invariant -/

/-- When every path exists, the chapter fold emits one chapter per path. -/
theorem buildChaptersAux_length_all (ex : String → Bool) (dur : String → Rat) :
    ∀ (l : List String) (i : Nat) (t : Rat), (∀ v ∈ l, ex v = true) →
      (buildChaptersAux ex dur i t l).length = l.length := by
  intro l
  induction l with
  | nil => intro i t _; rfl
  | cons v rest ih =>
    intro i t hex
    rw [buildChaptersAux, if_pos (hex v (List.mem_cons_self v rest))]
    rw [List.length_cons, List.length_cons]
    rw [ih (i + 1) (t + dur v) (fun a ha => hex a (List.mem_cons_of_mem v ha))]

/-- When every path exists, the chapter at position k of the fold output
carries index i plus k and start offset t plus the sum of the first k
durations. -/
theorem buildChaptersAux_getD_all (ex : String → Bool) (dur : String → Rat) :
    ∀ (l : List String) (i : Nat) (t : Rat) (k : Nat), (∀ v ∈ l, ex v = true) →
      k < l.length →
      (buildChaptersAux ex dur i t l).getD k defaultChapter
        = { index := i + k, name := extract_scene_name (l.getD k ""),
            start := t + ((l.take k).map dur).sum, duration := dur (l.getD k ""),
            thumbnail := thumbName (i + k) } := by
  intro l
  induction l with
  | nil => intro i t k _ hk; exact absurd hk (by simp)
  | cons v rest ih =>
    intro i t k hex hk
    rw [buildChaptersAux, if_pos (hex v (List.mem_cons_self v rest))]
    cases k with
    | zero =>
      simp only [List.getD_cons_zero, List.take_zero, List.map_nil, List.sum_nil,
        add_zero, Nat.add_zero]
    | succ k =>
      rw [List.getD_cons_succ, List.getD_cons_succ]
      rw [ih (i + 1) (t + dur v) k (fun a ha => hex a (List.mem_cons_of_mem v ha))
        (by simpa using Nat.lt_of_succ_lt_succ hk)]
      rw [List.take_succ_cons, List.map_cons, List.sum_cons]
      congr 1
      · omega
      · ring
      · congr 1
        omega

/-- Interval characterization of the partial sums of a nonnegative list:
a point lies in the half-open span of the total sum exactly when it lies
in the half-open span of exactly one element. -/
theorem sum_take_cover (ds : List Rat) (hpos : ∀ d ∈ ds, 0 ≤ d) (x : Rat) :
    (0 ≤ x ∧ x < ds.sum) ↔
      ∃ k, k < ds.length ∧ (ds.take k).sum ≤ x ∧ x < (ds.take k).sum + ds.getD k 0 := by
  induction ds generalizing x with
  | nil =>
    simp only [List.sum_nil, List.length_nil]
    constructor
    · rintro ⟨h1, h2⟩; exact absurd (lt_of_le_of_lt h1 h2) (lt_irrefl 0)
    · rintro ⟨k, hk, _⟩; exact absurd hk (Nat.not_lt_zero k)
  | cons d t ih =>
    have hd0 : 0 ≤ d := hpos d (List.mem_cons_self d t)
    have ht : ∀ a ∈ t, 0 ≤ a := fun a ha => hpos a (List.mem_cons_of_mem d ha)
    have hts : 0 ≤ t.sum := List.sum_nonneg ht
    constructor
    · rintro ⟨hx0, hxs⟩
      rw [List.sum_cons] at hxs
      by_cases hxd : x < d
      · exact ⟨0, by simp, by simpa using hx0, by simpa using hxd⟩
      · push_neg at hxd
        have h1 : 0 ≤ x - d := by linarith
        have h2 : x - d < t.sum := by linarith
        obtain ⟨k, hk, hk1, hk2⟩ := (ih ht (x - d)).mp ⟨h1, h2⟩
        refine ⟨k + 1, by simpa using Nat.succ_lt_succ hk, ?_, ?_⟩
        · rw [List.take_succ_cons, List.sum_cons]; linarith
        · rw [List.take_succ_cons, List.sum_cons, List.getD_cons_succ]; linarith
    · rintro ⟨k, hk, hk1, hk2⟩
      have htksum : 0 ≤ ((d :: t).take k).sum :=
        List.sum_nonneg (fun a ha => hpos a (List.mem_of_mem_take ha))
      have hklen : k < (d :: t).length := hk
      have hgetd : (d :: t).getD k 0 = (d :: t).get ⟨k, hklen⟩ := List.getD_eq_get _ _ hklen
      have hsucc : ((d :: t).take (k + 1)).sum
          = ((d :: t).take k).sum + (d :: t).get ⟨k, hklen⟩ :=
        List.sum_take_succ (d :: t) k hklen
      have hrest : 0 ≤ ((d :: t).drop (k + 1)).sum :=
        List.sum_nonneg (fun a ha => hpos a (List.mem_of_mem_drop ha))
      have htotal : ((d :: t).take (k + 1)).sum + ((d :: t).drop (k + 1)).sum
          = (d :: t).sum := List.sum_take_add_sum_drop _ _
      constructor
      · linarith
      · rw [hgetd] at hk2; linarith

/-- C1: for an ordered input list whose paths all exist (durations being
the probed values, hence nonnegative), build_chapters emits one chapter
per segment whose start offset is the sum of the durations of all prior
segments; consecutive chapters are contiguous (each starts where the
previous one ends), and the chapters tile the half-open interval from
zero to the total duration: a time x lies in that interval exactly when
some chapter contains it in its own half-open span, so the timeline is
ordered, contiguous and non-overlapping. -/
theorem build_chapters_timeline_c1 (ex : String → Bool) (dur : String → Rat)
    (videos : List String) (hex : ∀ v ∈ videos, ex v = true)
    (hd : ∀ v ∈ videos, 0 ≤ dur v) :
    (build_chapters ex dur videos).length = videos.length
    ∧ (∀ k, k < videos.length →
        ((build_chapters ex dur videos).getD k defaultChapter).start
          = ((videos.take k).map dur).sum)
    ∧ (∀ k, k + 1 < videos.length →
        ((build_chapters ex dur videos).getD (k + 1) defaultChapter).start
          = ((build_chapters ex dur videos).getD k defaultChapter).start
            + ((build_chapters ex dur videos).getD k defaultChapter).duration)
    ∧ (∀ x : Rat, (0 ≤ x ∧ x < (videos.map dur).sum) ↔
        ∃ k, k < videos.length ∧
          ((build_chapters ex dur videos).getD k defaultChapter).start ≤ x
          ∧ x < ((build_chapters ex dur videos).getD k defaultChapter).start
              + ((build_chapters ex dur videos).getD k defaultChapter).duration) := by
  have hget : ∀ k, k < videos.length →
      (build_chapters ex dur videos).getD k defaultChapter
        = { index := 0 + k, name := extract_scene_name (videos.getD k ""),
            start := 0 + ((videos.take k).map dur).sum,
            duration := dur (videos.getD k ""), thumbnail := thumbName (0 + k) } :=
    fun k hk => buildChaptersAux_getD_all ex dur videos 0 0 k hex hk
  have hstart : ∀ k, k < videos.length →
      ((build_chapters ex dur videos).getD k defaultChapter).start
        = ((videos.map dur).take k).sum := by
    intro k hk
    rw [hget k hk]
    show 0 + ((videos.take k).map dur).sum = _
    rw [zero_add, List.map_take]
  have hdurk : ∀ k, k < videos.length →
      ((build_chapters ex dur videos).getD k defaultChapter).duration
        = (videos.map dur).getD k 0 := by
    intro k hk
    rw [hget k hk]
    show dur (videos.getD k "") = _
    have hkm : k < (videos.map dur).length := by simpa using hk
    rw [List.getD_eq_get videos _ hk, List.getD_eq_get (videos.map dur) _ hkm]
    simp [List.get_eq_getElem, List.getElem_map]
  have hpos : ∀ d ∈ videos.map dur, 0 ≤ d := by
    intro d hd2
    obtain ⟨v, hv, rfl⟩ := List.mem_map.mp hd2
    exact hd v hv
  refine ⟨buildChaptersAux_length_all ex dur videos 0 0 hex, ?_, ?_, ?_⟩
  · intro k hk
    rw [hstart k hk, List.map_take]
  · intro k hk
    have hk0 : k < videos.length := by omega
    rw [hstart (k + 1) hk, hstart k hk0, hdurk k hk0]
    have hkm : k < (videos.map dur).length := by simpa using hk0
    rw [List.sum_take_succ (videos.map dur) k hkm]
    rw [List.getD_eq_get (videos.map dur) _ hkm]
    rfl
  · intro x
    rw [sum_take_cover (videos.map dur) hpos x]
    constructor
    · rintro ⟨k, hk, h1, h2⟩
      have hk' : k < videos.length := by simpa using hk
      exact ⟨k, hk', by rw [hstart k hk']; exact h1,
        by rw [hstart k hk', hdurk k hk']; exact h2⟩
    · rintro ⟨k, hk', h1, h2⟩
      have hk : k < (videos.map dur).length := by simpa using hk'
      rw [hstart k hk'] at h1
      rw [hstart k hk', hdurk k hk'] at h2
      exact ⟨k, hk, h1, h2⟩

/-- Witness for C1 at two concrete segments of durations 5 and 7.5: the
chapter list has two chapters, the second starting at the first segment
duration. -/
theorem build_chapters_timeline_c1_witness :
    (build_chapters (fun _ => true)
        (fun v => if v == "intro.mp4" then 5 else 15 / 2)
        ["intro.mp4", "main.mp4"]).length = 2
    ∧ ((build_chapters (fun _ => true)
          (fun v => if v == "intro.mp4" then 5 else 15 / 2)
          ["intro.mp4", "main.mp4"]).getD 1 defaultChapter).start
        = ((["intro.mp4", "main.mp4"].take 1).map
            (fun v => if v == "intro.mp4" then 5 else 15 / 2)).sum := by
  have h := build_chapters_timeline_c1 (fun _ => true)
    (fun v => if v == "intro.mp4" then 5 else 15 / 2) ["intro.mp4", "main.mp4"]
    (by intro v _; rfl)
    (by intro v _; dsimp only; split <;> norm_num)
  exact ⟨h.1.trans rfl, h.2.1 1 (by norm_num)⟩

/-! ## Claim C2: byte range serving -/

/-- C2: when the Range header parses as bytes=start-end with start at
most end and end within the file, serve_file answers 206 with the exact
Content-Range, Content-Length end minus start plus one, Accept-Ranges
bytes, and a body that is exactly the byte window from start to end (the
stated window has that length and its j-th byte is byte start plus j of
the file); when the end is omitted the window runs to the last byte; and
with no Range header, or one that does not match the pattern, the full
200 response with the Accept-Ranges header is returned. -/
theorem serve_file_range_c2 (file : List Nat) (ct rh : String) (s e : Nat)
    (hm : rangeMatch rh = some (s, some e)) (hse : s ≤ e) (hef : e < file.length) :
    (serve_file file ct (some rh)
       = { status := 206, contentType := ct,
           contentRange := some ("bytes " ++ toString (s : Int) ++ "-" ++ toString (e : Int)
             ++ "/" ++ toString (file.length : Int)),
           contentLength := (e : Int) - (s : Int) + 1,
           acceptRanges := "bytes",
           body := (file.drop s).take (e - s + 1) })
    ∧ ((file.drop s).take (e - s + 1)).length = e - s + 1
    ∧ (∀ j, j < e - s + 1 →
        ((file.drop s).take (e - s + 1)).getD j 0 = file.getD (s + j) 0)
    ∧ (∀ rh2 st2, rangeMatch rh2 = some (st2, none) → st2 < file.length →
        serve_file file ct (some rh2)
          = { status := 206, contentType := ct,
              contentRange := some ("bytes " ++ toString (st2 : Int) ++ "-"
                ++ toString ((file.length : Int) - 1) ++ "/" ++ toString (file.length : Int)),
              contentLength := (file.length : Int) - (st2 : Int),
              acceptRanges := "bytes",
              body := file.drop st2 })
    ∧ (serve_file file ct none = fullResp file ct)
    ∧ (∀ rh3, rangeMatch rh3 = none → serve_file file ct (some rh3) = fullResp file ct) := by
  have hread : fileRead file s ((e : Int) - (s : Int) + 1) = (file.drop s).take (e - s + 1) := by
    rw [fileRead, if_neg (by omega)]
    congr 1
    omega
  refine ⟨?_, ?_, ?_, ?_, rfl, ?_⟩
  · simp only [serve_file, hm]
    rw [hread]
  · rw [List.length_take, List.length_drop]
    omega
  · intro j hj
    have hjlen : j < ((file.drop s).take (e - s + 1)).length := by
      rw [List.length_take, List.length_drop]; omega
    have hsj : s + j < file.length := by omega
    rw [List.getD_eq_get _ _ hjlen, List.getD_eq_get file _ hsj]
    simp [List.get_eq_getElem, List.getElem_take, List.getElem_drop]
  · intro rh2 st2 hm2 hst2
    have hread2 : fileRead file st2 ((file.length : Int) - 1 - (st2 : Int) + 1)
        = file.drop st2 := by
      rw [fileRead, if_neg (by omega)]
      apply List.take_all_of_le
      rw [List.length_drop]
      omega
    simp only [serve_file, hm2]
    rw [hread2]
    congr 1
    omega
  · intro rh3 hm3
    simp only [serve_file, hm3]

/-- Witness for C2: a ten-byte file requested with bytes=2-5 yields 206,
Content-Length 4 and exactly bytes 2 through 5. -/
theorem serve_file_range_c2_witness :
    (serve_file [10, 11, 12, 13, 14, 15, 16, 17, 18, 19] "video/mp4"
        (some "bytes=2-5")).status = 206
    ∧ (serve_file [10, 11, 12, 13, 14, 15, 16, 17, 18, 19] "video/mp4"
        (some "bytes=2-5")).contentLength = 4
    ∧ (serve_file [10, 11, 12, 13, 14, 15, 16, 17, 18, 19] "video/mp4"
        (some "bytes=2-5")).body = [12, 13, 14, 15] := by
  have h := serve_file_range_c2 [10, 11, 12, 13, 14, 15, 16, 17, 18, 19] "video/mp4"
    "bytes=2-5" 2 5 (by decide) (by decide) (by decide)
  refine ⟨?_, ?_, ?_⟩ <;> rw [h.1] <;> decide

/-! ## Claim C3: the merged subtitle track -/

/-- renderFrom emits exactly one line group per parsed entry. -/
theorem renderFrom_length : ∀ (ts : List (Rat × Rat × String)) (base : Nat),
    (renderFrom base ts).length = ts.length := by
  intro ts
  induction ts with
  | nil => intro base; rfl
  | cons t ts ih => intro base; rw [renderFrom, List.length_cons, List.length_cons, ih]

/-- renderFrom distributes over append, numbering the second part from
base plus the length of the first. -/
theorem renderFrom_append : ∀ (xs ys : List (Rat × Rat × String)) (base : Nat),
    renderFrom base (xs ++ ys) = renderFrom base xs ++ renderFrom (base + xs.length) ys := by
  intro xs
  induction xs with
  | nil => intro ys base; simp [renderFrom]
  | cons x xs ih =>
    intro ys base
    rw [List.cons_append, renderFrom, renderFrom, ih ys (base + 1), List.cons_append,
      List.length_cons]
    have harith : base + (xs.length + 1) = base + 1 + xs.length := by omega
    rw [harith]

/-- The block fold of one subtitle file appends, after the accumulated
entries, exactly the parseable blocks, shifted by the offset and numbered
consecutively from one past the accumulated count. -/
theorem addBlocks_renderFrom (offset : Rat) :
    ∀ (blocks : List String) (es : List String),
      addBlocks offset es blocks
        = es ++ renderFrom (es.length + 1)
            ((blocks.filterMap parseBlock).map
              (fun t => (t.1 + offset, t.2.1 + offset, t.2.2))) := by
  intro blocks
  induction blocks with
  | nil => intro es; simp [addBlocks, renderFrom]
  | cons b bs ih =>
    intro es
    rw [addBlocks_cons]
    cases hb : parseBlock b with
    | none =>
      simp only [hb, List.filterMap_cons_none hb]
      exact ih es
    | some t =>
      obtain ⟨ts, te, ttext⟩ := t
      simp only [hb, List.filterMap_cons_some hb, List.map_cons, renderFrom]
      rw [ih (es ++ [renderEntry (es.length + 1) (ts + offset) (te + offset) ttext])]
      rw [List.length_append, List.length_cons, List.length_nil]
      rw [List.append_assoc, List.singleton_append]

/-- The outer fold of the merger appends, after the accumulated entries,
the transparent specification entries numbered from one past the
accumulated count. -/
theorem concatEntriesAux_renderFrom :
    ∀ (vs : List SegVideo) (es : List String) (offset : Rat),
      concatEntriesAux vs es offset = es ++ renderFrom (es.length + 1) (specFrom offset vs) := by
  intro vs
  induction vs with
  | nil => intro es offset; simp [concatEntriesAux, specFrom, renderFrom]
  | cons v t ih =>
    intro es offset
    cases hsrt : v.srtContent with
    | none =>
      have hstep : concatEntriesAux (v :: t) es offset
          = concatEntriesAux t es (offset + v.duration) := by
        show concatEntriesAux t
            (match v.srtContent with
             | none => es
             | some content => addBlocks offset es (splitBlocks content))
            (offset + v.duration)
          = concatEntriesAux t es (offset + v.duration)
        rw [hsrt]
      rw [hstep]
      rw [ih es (offset + v.duration)]
      rw [specFrom]
      simp only [segParsed, hsrt, List.nil_append]
    | some c =>
      have hstep : concatEntriesAux (v :: t) es offset
          = concatEntriesAux t (addBlocks offset es (splitBlocks c)) (offset + v.duration) := by
        show concatEntriesAux t
            (match v.srtContent with
             | none => es
             | some content => addBlocks offset es (splitBlocks content))
            (offset + v.duration)
          = concatEntriesAux t (addBlocks offset es (splitBlocks c)) (offset + v.duration)
        rw [hsrt]
      rw [hstep]
      rw [ih _ (offset + v.duration), addBlocks_renderFrom]
      rw [specFrom]
      have hseg : segParsed offset v
          = ((splitBlocks c).filterMap parseBlock).map
              (fun t => (t.1 + offset, t.2.1 + offset, t.2.2)) := by
        simp only [segParsed, hsrt]
      rw [hseg]
      rw [renderFrom_append]
      rw [List.append_assoc]
      rw [List.length_append, renderFrom_length]
      have harith2 : ∀ a b : Nat, a + b + 1 = a + 1 + b := by omega
      rw [harith2]

/-- The recursive specification equals the flatMap form whose offset for
position k is explicitly the sum of the durations of the first k
segments. -/
theorem specFrom_eq_flatMap : ∀ (vs : List SegVideo) (offset : Rat),
    specFrom offset vs
      = (List.range vs.length).flatMap
          (fun k => segParsed (offset + offsetBefore vs k) (vs.getD k defaultSeg)) := by
  intro vs
  induction vs with
  | nil => intro offset; rfl
  | cons v t ih =>
    intro offset
    rw [specFrom, ih (offset + v.duration)]
    rw [List.length_cons, List.range_succ_eq_map, List.flatMap_cons]
    congr 1
    · simp [offsetBefore]
    · rw [List.flatMap_def, List.flatMap_def, List.map_map]
      congr 1
      apply List.map_congr_left
      intro k _
      simp only [Function.comp_apply, Nat.succ_eq_add_one, List.getD_cons_succ]
      have hob : offsetBefore (v :: t) (k + 1) = v.duration + offsetBefore t k := by
        simp [offsetBefore, List.take_succ_cons]
      rw [hob, ← add_assoc]

/-- specEntries is the zero-offset instance of the recursion. -/
theorem specEntries_eq_specFrom (vs : List SegVideo) : specEntries vs = specFrom 0 vs := by
  rw [specEntries, specFrom_eq_flatMap vs 0]
  apply List.flatMap_congr
  intro k _
  rw [zero_add]

/-- A list of segments none of which has a subtitle file specifies no
entries. -/
theorem specFrom_none : ∀ (vs : List SegVideo), (∀ v ∈ vs, v.srtContent = none) →
    ∀ offset : Rat, specFrom offset vs = [] := by
  intro vs
  induction vs with
  | nil => intro _ offset; rfl
  | cons v t ih =>
    intro h offset
    rw [specFrom]
    rw [ih (fun a ha => h a (List.mem_cons_of_mem v ha)) (offset + v.duration)]
    simp only [segParsed, h v (List.mem_cons_self v t), List.append_nil]

/-- C3: the entry list produced by the merger equals the transparent
specification rendered with consecutive sequence numbers starting at 1:
for each input position k, the well-formed blocks of segment k appear in
order, with start and end times shifted by the sum of the durations of
segments 0..k-1, re-serialized through srt_time (canonical comma format,
whatever separator the input used); when no segment has a subtitle file
the output text is empty; and on two 10-second segments, the second of
which uses dot separators and a block from second 1 to second 2, the
merged output renumbers the entries 1 and 2 and shows that block at
second 11 to second 12 with comma separators. -/
theorem concat_srt_merge_c3 (vs : List SegVideo) :
    (concatEntries vs = renderFrom 1 (specEntries vs))
    ∧ ((∀ v ∈ vs, v.srtContent = none) → concatOutput vs = "")
    ∧ (concatOutput
        [{ srtContent := some "1\n00:00:00,000 --> 00:00:01,000\nA", duration := 10 },
         { srtContent := some "1\n00:00:01.000 --> 00:00:02.000\nB", duration := 10 }]
        = "1\n00:00:00,000 --> 00:00:01,000\nA\n\n2\n00:00:11,000 --> 00:00:12,000\nB\n") := by
  refine ⟨?_, ?_, ?_⟩
  · rw [concatEntries, concatEntriesAux_renderFrom, specEntries_eq_specFrom]
    simp
  · intro hnone
    have h2 : concatEntries vs = [] := by
      rw [concatEntries, concatEntriesAux_renderFrom, specFrom_none vs hnone 0]
      rfl
    rw [concatOutput, h2]
    rfl
  · have e1 : concatEntries
        [{ srtContent := some "1\n00:00:00,000 --> 00:00:01,000\nA", duration := 10 },
         { srtContent := some "1\n00:00:01.000 --> 00:00:02.000\nB", duration := 10 }]
        = [renderEntry 1 (tsSeconds 0 0 0 0 + 0) (tsSeconds 0 0 1 0 + 0) "A",
           renderEntry 2 (tsSeconds 0 0 1 0 + (0 + 10)) (tsSeconds 0 0 2 0 + (0 + 10)) "B"] := by
      rfl
    have q1 : tsSeconds 0 0 0 0 + (0 : Rat) = 0 := by norm_num [tsSeconds]
    have q2 : tsSeconds 0 0 1 0 + (0 : Rat) = 1 := by norm_num [tsSeconds]
    have q3 : tsSeconds 0 0 1 0 + ((0 : Rat) + 10) = 11 := by norm_num [tsSeconds]
    have q4 : tsSeconds 0 0 2 0 + ((0 : Rat) + 10) = 12 := by norm_num [tsSeconds]
    have s00 : srt_time 0 = "00:00:00,000" := by
      simp only [srt_time]
      norm_num
      decide
    have s01 : srt_time 1 = "00:00:01,000" := by
      simp only [srt_time]
      norm_num
      decide
    have s11 : srt_time 11 = "00:00:11,000" := by
      simp only [srt_time]
      norm_num
      decide
    have s12 : srt_time 12 = "00:00:12,000" := by
      simp only [srt_time]
      norm_num
      decide
    have hE1 : renderEntry 1 0 1 "A" = "1\n00:00:00,000 --> 00:00:01,000\nA" := by
      simp only [renderEntry, s00, s01]
      decide
    have hE2 : renderEntry 2 11 12 "B" = "2\n00:00:11,000 --> 00:00:12,000\nB" := by
      simp only [renderEntry, s11, s12]
      decide
    rw [concatOutput, e1, q1, q2, q3, q4, hE1, hE2]
    decide

/-- Witness for C3: a segment list with no subtitle files at all yields
the empty output text. -/
theorem concat_srt_merge_c3_witness :
    concatOutput
      [{ srtContent := none, duration := 4 }, { srtContent := none, duration := 6 }] = "" := by
  exact (concat_srt_merge_c3
    [{ srtContent := none, duration := 4 }, { srtContent := none, duration := 6 }]).2.1
    (by decide)
